import Mathlib

/-!
Verification of the tusk day-file store and migration engine
(john-crossley/tusk), shallowly embedded in Lean 4.

Modelling conventions:
* `Time` models `chrono::DateTime<Utc>` instants as `Nat`; the RFC3339
  serialization of a timestamp is modelled as the injective embedding
  `Json.num` of that `Nat`.
* `Date` models `chrono::NaiveDate` by its ISO "YYYY-MM-DD" string, which
  is exactly the form in which dates appear on disk and in paths; chrono
  serializes a `NaiveDate` as this string and parses it back bijectively.
* The file system is an association list from path strings to `Json`
  documents plus the set of directories passed to `create_dir_all`.
  A stored `Json` value stands for the serialized bytes of the document:
  `serde_json::to_writer_pretty` is deterministic and injective on JSON
  values, so two files are byte-for-byte equal iff their stored `Json`
  values are equal.
* Fallible I/O operations take an explicit `Option String` fault oracle:
  `some msg` means the underlying OS call fails with message `msg`,
  `none` means it succeeds.  Fresh values produced by the environment
  (nanoid, `Utc::now`, today's date, editor output) are passed as
  explicit parameters.
-/

abbrev Time := Nat

abbrev Date := String

/-- JSON documents (model of `serde_json::Value` as written by the store). -/
inductive Json where
  | null
  | str (s : String)
  | num (n : Nat)
  | arr (xs : List Json)
  | obj (fields : List (String × Json))
deriving Repr

/-- Model of `ItemPriority` from src/models/item.rs, serialized with
`rename_all = "lowercase"`. -/
inductive ItemPriority where
  | high
  | medium
  | low
deriving DecidableEq, Repr

/-- Model of `Item` from src/models/item.rs: one task. -/
structure Item where
  id : String
  text : String
  created_at : Time
  done_at : Option Time
  priority : ItemPriority
  tags : List String
  due : Option Time
  notes : Option String
  index : Nat
  migrated_from : Option Date
deriving DecidableEq, Repr

/-- Model of `DayFile` from src/models/dayfile.rs: one calendar day's state. -/
structure DayFile where
  date : Date
  items : List Item
deriving DecidableEq, Repr

/-- Model of `Item::new` from src/models/item.rs; the fresh nanoid and the
`Utc::now()` creation instant are supplied by the caller as oracle
inputs. -/
def Item.new (text : String) (priority : ItemPriority) (tags : List String)
    (next_idx : Nat) (notes : Option String) (id : String) (now : Time) : Item :=
  { id := id
    text := text
    created_at := now
    done_at := none
    priority := priority
    tags := tags
    due := none
    notes := notes
    index := next_idx
    migrated_from := none }

/-! ## Serialization (model of the serde derive on Item and DayFile) -/

def encOptNum : Option Nat → Json
  | none => .null
  | some t => .num t

def encOptStr : Option String → Json
  | none => .null
  | some s => .str s

def encodePriority : ItemPriority → Json
  | .high => .str "high"
  | .medium => .str "medium"
  | .low => .str "low"

/-- Serialize an `Item` field-by-field in Rust declaration order, exactly
the on-disk schema of spec section 6. -/
def encodeItem (i : Item) : Json :=
  .obj [("id", .str i.id),
        ("text", .str i.text),
        ("created_at", .num i.created_at),
        ("done_at", encOptNum i.done_at),
        ("priority", encodePriority i.priority),
        ("tags", .arr (i.tags.map .str)),
        ("due", encOptNum i.due),
        ("notes", encOptStr i.notes),
        ("index", .num i.index),
        ("migrated_from", encOptStr i.migrated_from)]

def encodeDayFile (d : DayFile) : Json :=
  .obj [("date", .str d.date),
        ("items", .arr (d.items.map encodeItem))]

/-- Field lookup by name in a JSON object, as serde's map-based
deserializer does. -/
def jGet : List (String × Json) → String → Option Json
  | [], _ => none
  | (k, v) :: rest, key => if k = key then some v else jGet rest key

def decStr : Option Json → Option String
  | some (.str s) => some s
  | _ => none

def decNum : Option Json → Option Nat
  | some (.num n) => some n
  | _ => none

def decOptNum : Option Json → Option (Option Nat)
  | some .null => some none
  | some (.num n) => some (some n)
  | _ => none

def decOptStr : Option Json → Option (Option String)
  | some .null => some none
  | some (.str s) => some (some s)
  | _ => none

def decPriority : Option Json → Option ItemPriority
  | some (.str s) =>
      if s = "high" then some .high
      else if s = "medium" then some .medium
      else if s = "low" then some .low
      else none
  | _ => none

def decStrList : List Json → Option (List String)
  | [] => some []
  | .str s :: rest => (decStrList rest).map (s :: ·)
  | _ => none

def decTags : Option Json → Option (List String)
  | some (.arr xs) => decStrList xs
  | _ => none

def decodeItem : Json → Option Item
  | .obj fields => do
      let id ← decStr (jGet fields "id")
      let text ← decStr (jGet fields "text")
      let created ← decNum (jGet fields "created_at")
      let doneAt ← decOptNum (jGet fields "done_at")
      let prio ← decPriority (jGet fields "priority")
      let tags ← decTags (jGet fields "tags")
      let due ← decOptNum (jGet fields "due")
      let notes ← decOptStr (jGet fields "notes")
      let idx ← decNum (jGet fields "index")
      let migrated ← decOptStr (jGet fields "migrated_from")
      pure ⟨id, text, created, doneAt, prio, tags, due, notes, idx, migrated⟩
  | _ => none

def decodeItems : List Json → Option (List Item)
  | [] => some []
  | j :: rest => do
      let i ← decodeItem j
      let is ← decodeItems rest
      pure (i :: is)

def decodeDayFile : Json → Option DayFile
  | .obj fields =>
      match jGet fields "date", jGet fields "items" with
      | some (.str date), some (.arr xs) =>
          (decodeItems xs).map (fun items => ⟨date, items⟩)
      | _, _ => none
  | _ => none

/-! ## Round-trip lemmas -/

theorem decStrList_map_str (l : List String) :
    decStrList (l.map Json.str) = some l := by
  induction l with
  | nil => rfl
  | cons s rest ih => simp [decStrList, ih]

theorem decodeItem_encodeItem (i : Item) : decodeItem (encodeItem i) = some i := by
  obtain ⟨id, text, created, doneAt, prio, tags, due, notes, idx, migrated⟩ := i
  cases doneAt <;> cases due <;> cases notes <;> cases migrated <;> cases prio <;>
    simp [encodeItem, decodeItem, jGet, decStr, decNum, decOptNum, decOptStr,
      decPriority, decTags, decStrList_map_str, encOptNum, encOptStr,
      encodePriority, Option.bind]

theorem decodeItems_map_encodeItem (l : List Item) :
    decodeItems (l.map encodeItem) = some l := by
  induction l with
  | nil => rfl
  | cons i rest ih => simp [decodeItems, decodeItem_encodeItem, ih, Option.bind]

theorem decodeDayFile_encodeDayFile (d : DayFile) :
    decodeDayFile (encodeDayFile d) = some d := by
  obtain ⟨date, items⟩ := d
  simp [encodeDayFile, decodeDayFile, jGet, decodeItems_map_encodeItem]

/-! ## Path resolution (src/utils/files.rs) -/

/-- Rust `format!("{:04}", n)` / `format!("{:02}", n)`: left-pad the decimal
representation with zeros. -/
def padZeros (width : Nat) (n : Nat) : String :=
  let s := Nat.repr n
  String.mk (List.replicate (width - s.length) '0') ++ s

def charDigit (c : Char) : Nat := c.toNat - 48

/-- Model of `NaiveDate::year` on the ISO-string "YYYY-MM-DD" model of a date. -/
def dateYear (d : Date) : Nat :=
  match d.data with
  | y1 :: y2 :: y3 :: y4 :: _ =>
      ((charDigit y1 * 10 + charDigit y2) * 10 + charDigit y3) * 10 + charDigit y4
  | _ => 0

/-- Model of `NaiveDate::month` on the ISO-string "YYYY-MM-DD" model of a date. -/
def dateMonth (d : Date) : Nat :=
  match d.data with
  | _ :: _ :: _ :: _ :: _ :: m1 :: m2 :: _ => charDigit m1 * 10 + charDigit m2
  | _ => 0

/-- Model of `resolve_day_file_path`: `<base>/<YYYY>/<MM>/<date>.json`.  The base
directory (override root or `tusk_data_root` with the vault already
normalised in) is an explicit parameter. -/
def resolve_day_file_path (base : String) (date : Date) : String :=
  base ++ "/" ++ padZeros 4 (dateYear date) ++ "/" ++ padZeros 2 (dateMonth date)
    ++ "/" ++ date ++ ".json"

/-- Parent directory of a path: everything before the last `/`.  Stands for
the whole ancestor chain that `create_dir_all` ensures. -/
def dirname (p : String) : String :=
  String.mk (((p.data.reverse.dropWhile (· ≠ '/')).drop 1).reverse)

/-! ## File-system state -/

def getFile : List (String × Json) → String → Option Json
  | [], _ => none
  | (q, c) :: rest, p => if q = p then some c else getFile rest p

def setFile : List (String × Json) → String → Json → List (String × Json)
  | [], p, c => [(p, c)]
  | (q, d) :: rest, p, c =>
      if q = p then (p, c) :: rest else (q, d) :: setFile rest p c

/-- On-disk state: serialized documents by path, plus directories ensured
by `create_dir_all`. -/
structure FS where
  files : List (String × Json)
  dirs : List String
deriving Repr

theorem getFile_setFile_same (l : List (String × Json)) (p : String) (c : Json) :
    getFile (setFile l p c) p = some c := by
  induction l with
  | nil => simp [getFile, setFile]
  | cons qd rest ih =>
      obtain ⟨q, d⟩ := qd
      by_cases h : q = p <;> simp [getFile, setFile, h, ih]

theorem getFile_setFile_other (l : List (String × Json)) (p q : String) (c : Json)
    (h : q ≠ p) : getFile (setFile l p c) q = getFile l q := by
  have hpq : p ≠ q := fun hh => h hh.symm
  induction l with
  | nil => simp [getFile, setFile, hpq]
  | cons rd rest ih =>
      obtain ⟨r, d⟩ := rd
      by_cases hr : r = p
      · subst hr
        simp [getFile, setFile, hpq, h]
      · by_cases hq : r = q
        · subst hq
          simp [getFile, setFile, hr, h, hpq]
        · simp [getFile, setFile, hr, hq, ih]

/-! ## Day-file store (src/utils/files.rs) -/

/-- Model of `save_dayfile`: ensure parent directories, then write the full
serialized document (pretty JSON plus trailing newline) to `path`,
overwriting previous content.  `fault = some m` models the underlying
create/write/flush call failing with message `m`. -/
def save_dayfile (fault : Option String) (path : String) (d : DayFile)
    (fs : FS) : FS × Except String Unit :=
  match fault with
  | some m => (fs, .error m)
  | none =>
      ({ files := setFile fs.files path (encodeDayFile d),
         dirs := dirname path :: fs.dirs }, .ok ())

/-- Model of `create_new_dayfile`: build the empty day-file for `date`, persist it,
return it. -/
def create_new_dayfile (saveFault : Option String) (path : String) (date : Date)
    (fs : FS) : FS × Except String DayFile :=
  let d : DayFile := { date := date, items := [] }
  match save_dayfile saveFault path d fs with
  | (fs1, .ok _) => (fs1, .ok d)
  | (fs1, .error m) => (fs1, .error m)

/-- Model of `load_or_create_dayfile`: open and parse `path`; on `NotFound` create
the empty day-file; on a parse failure report data corruption naming the
path and the underlying serde error; on any other open failure report an
I/O error naming the path.  `openFault = some m` models `File::open`
failing for a non-`NotFound` reason with message `m`. -/
def load_or_create_dayfile (openFault saveFault : Option String) (path : String)
    (date : Date) (fs : FS) : FS × Except String DayFile :=
  match openFault with
  | some m => (fs, .error ("open " ++ path ++ " failed: " ++ m))
  | none =>
      match getFile fs.files path with
      | some j =>
          match decodeDayFile j with
          | some d => (fs, .ok d)
          | none => (fs, .error ("read " ++ path ++ " failed: invalid day-file JSON"))
      | none => create_new_dayfile saveFault path date fs

/-! ## Pure command helpers (src/main.rs) -/

/-- Model of `validate_index`: items are addressed 1-based; 0 and anything past the
end are out of range. -/
def validate_index (i : Nat) (len : Nat) : Except String Nat :=
  if i = 0 ∨ i > len then
    .error ("item at index " ++ Nat.repr i ++ " does not exist.")
  else
    .ok (i - 1)

/-- Rust `str::trim`: drop whitespace from both ends (computed on the
character list so it evaluates inside the kernel). -/
def strTrim (s : String) : String :=
  String.mk (((s.data.dropWhile Char.isWhitespace).reverse.dropWhile
    Char.isWhitespace).reverse)

/-- Model of `sanitise_str`: trim, reject empty. -/
def sanitise_str (text : String) : Except String String :=
  let trimmed := strTrim text
  if trimmed = "" then
    .error "Oops, did you forget to add some text?"
  else
    .ok trimmed

/-- Model of `get_item_priority`: free-text priority, unrecognized defaults to Low. -/
def get_item_priority (priority : Option String) : ItemPriority :=
  match priority.map (·.toLower) with
  | some p =>
      if p = "high" then .high
      else if p = "med" ∨ p = "medium" then .medium
      else .low
  | none => .low

/-- Rust `str::split_whitespace`: the maximal non-whitespace words of a
character list, in order (never yields an empty word). -/
def wordsAux : List Char → List Char → List (List Char)
  | [], acc => if acc = [] then [] else [acc.reverse]
  | c :: cs, acc =>
      if c.isWhitespace then
        if acc = [] then wordsAux cs [] else acc.reverse :: wordsAux cs []
      else wordsAux cs (c :: acc)

/-- Model of `extract_tags`: the `#word` tokens of the text (via
`split_whitespace` and `strip_prefix('#')`), `#` stripped, in order,
duplicates kept. -/
def extract_tags (s : String) : List String :=
  (wordsAux s.data []).filterMap
    (fun w =>
      match w with
      | '#' :: rest => some (String.mk rest)
      | _ => none)

/-- In-place update of the item at position `pos` (model of
`&mut dayfile.items[pos]` / `get_mut`). -/
def modifyIdx (f : Item → Item) : Nat → List Item → List Item
  | _, [] => []
  | 0, x :: xs => f x :: xs
  | n + 1, x :: xs => x :: modifyIdx f n xs

/-! ## Command handlers (src/main.rs)

Each handler threads the file-system state explicitly and returns it
together with the `io::Result` of the command; on an `Err` the state
reached so far is kept, as the real disk is.  `path` is the day-file path
already computed by `current_day_context` (`resolve_day_file_path` of the
target date); `date` is the target date. -/

/-- Model of `run_add`: sanitise the text, extract tags, load or create the
day-file, push the new item, save, and report the added item's day-file.
`editorOut` is the external editor's result when `--notes` is set;
`freshId`, `now` and `nextIdx` are the oracle inputs of `Item::new`. -/
def run_add (text : String) (priority : Option String) (attachNotes : Bool)
    (editorOut : String) (freshId : String) (now : Time) (nextIdx : Nat)
    (openF saveF : Option String) (path : String) (date : Date) (fs : FS) :
    FS × Except String DayFile :=
  match sanitise_str text with
  | .error m => (fs, .error m)
  | .ok newText =>
      let tags := extract_tags text
      match load_or_create_dayfile openF saveF path date fs with
      | (fs1, .error m) => (fs1, .error m)
      | (fs1, .ok d) =>
          let notes := if attachNotes then some editorOut else none
          let d' := { d with
            items := d.items ++ [Item.new newText (get_item_priority priority)
              tags nextIdx notes freshId now] }
          match save_dayfile saveF path d' fs1 with
          | (fs2, .error m) => (fs2, .error m)
          | (fs2, .ok _) => (fs2, .ok d')

/-- The `done_at` update of `run_done`:
`item.done_at.take().or(Some(Utc::now()))` when marking done (keep an
existing timestamp, otherwise stamp now), unconditional `None` when
marking undone. -/
def apply_done_mark (markDone : Bool) (now : Time) (i : Item) : Item :=
  { i with done_at :=
      if markDone then
        match i.done_at with
        | some t => some t
        | none => some now
      else none }

/-- Model of `run_done` (also `run_undone` via `markDone = false`): load or create
the day-file, validate the 1-based index, update the item, save. -/
def run_done (idx : Nat) (markDone : Bool) (now : Time)
    (openF saveF : Option String) (path : String) (date : Date) (fs : FS) :
    FS × Except String Unit :=
  match load_or_create_dayfile openF saveF path date fs with
  | (fs1, .error m) => (fs1, .error m)
  | (fs1, .ok d) =>
      match validate_index idx d.items.length with
      | .error m => (fs1, .error m)
      | .ok pos =>
          let d' := { d with items := modifyIdx (apply_done_mark markDone now) pos d.items }
          match save_dayfile saveF path d' fs1 with
          | (fs2, .error m) => (fs2, .error m)
          | (fs2, .ok _) => (fs2, .ok ())

/-- Model of `run_edit`: load or create the day-file, validate the index, replace
the text when given (re-sanitised), then unconditionally overwrite the
item's notes with the editor result when `--notes` is set and with `None`
otherwise, and save. -/
def run_edit (idx : Nat) (text : Option String) (attachNotes : Bool)
    (editorOut : String) (openF saveF : Option String) (path : String)
    (date : Date) (fs : FS) : FS × Except String Unit :=
  match load_or_create_dayfile openF saveF path date fs with
  | (fs1, .error m) => (fs1, .error m)
  | (fs1, .ok d) =>
      match validate_index idx d.items.length with
      | .error m => (fs1, .error m)
      | .ok pos =>
          let textStep : Except String (Item → Item) :=
            match text with
            | some s =>
                match sanitise_str s with
                | .ok t => .ok (fun i => { i with text := t })
                | .error m => .error m
            | none => .ok id
          match textStep with
          | .error m => (fs1, .error m)
          | .ok setText =>
              let notes := if attachNotes then some editorOut else none
              let newItems :=
                modifyIdx (fun i => { setText i with notes := notes }) pos d.items
              let d' := { d with items := newItems }
              match save_dayfile saveF path d' fs1 with
              | (fs2, .error m) => (fs2, .error m)
              | (fs2, .ok _) => (fs2, .ok ())

/-- The `retain_mut` loop of `run_migrate`: walk the source items in
order; an item with `done_at == None` is stamped with
`migrated_from = Some(from_date)`, pushed onto the moved list and dropped
from the kept list; a completed item is kept.  Returns
`(kept, items_to_move)`. -/
def migrate_partition (fromDate : Date) : List Item → List Item × List Item
  | [] => ([], [])
  | i :: rest =>
      if i.done_at.isNone then
        let stamped := { i with migrated_from := some fromDate }
        let (keep, move) := migrate_partition fromDate rest
        (keep, stamped :: move)
      else
        let (keep, move) := migrate_partition fromDate rest
        (i :: keep, move)

/-- Independent fault oracles for the four file operations of a
migration, in program order. -/
structure Faults where
  openFrom : Option String
  saveFrom : Option String
  openTo : Option String
  saveTo : Option String
deriving DecidableEq, Repr

def noFaults : Faults := ⟨none, none, none, none⟩

/-- Model of `run_migrate`: default both dates to today, reject identical dates
before any I/O, load or create the source, partition and stamp via
`retain_mut`, in commit mode save the source, then load or create the
destination, append the moved items, report the resulting destination
day-file, and in commit mode save it.  In dry-run mode both saves are
skipped but both loads (including their create-on-missing behaviour)
still run. -/
def run_migrate (fromOpt toOpt : Option Date) (dryRun : Bool) (today : Date)
    (base : String) (faults : Faults) (fs : FS) : FS × Except String DayFile :=
  let fromDate := fromOpt.getD today
  let toDate := toOpt.getD today
  if fromDate = toDate then
    (fs, .error "Both `--from` and `--to` are the same value, check your input.")
  else
    let fromPath := resolve_day_file_path base fromDate
    match load_or_create_dayfile faults.openFrom faults.saveFrom fromPath fromDate fs with
    | (fs1, .error m) => (fs1, .error m)
    | (fs1, .ok fromD) =>
        let (kept, moved) := migrate_partition fromDate fromD.items
        let fromD' := { fromD with items := kept }
        let step1 : FS × Except String Unit :=
          if dryRun then (fs1, .ok ())
          else save_dayfile faults.saveFrom fromPath fromD' fs1
        match step1 with
        | (fs2, .error m) => (fs2, .error m)
        | (fs2, .ok _) =>
            let toPath := resolve_day_file_path base toDate
            match load_or_create_dayfile faults.openTo faults.saveTo toPath toDate fs2 with
            | (fs3, .error m) => (fs3, .error m)
            | (fs3, .ok toD) =>
                let toD' := { toD with items := toD.items ++ moved }
                if dryRun then (fs3, .ok toD')
                else
                  match save_dayfile faults.saveTo toPath toD' fs3 with
                  | (fs4, .error m) => (fs4, .error m)
                  | (fs4, .ok _) => (fs4, .ok toD')

/-! ## Helper lemmas -/

/-- The `retain_mut` loop computes exactly the done/open partition, with
every moved item stamped with the source date. -/
theorem migrate_partition_spec (d : Date) (l : List Item) :
    migrate_partition d l =
      (l.filter (fun i => i.done_at.isSome),
       (l.filter (fun i => i.done_at.isNone)).map
         (fun i => { i with migrated_from := some d })) := by
  induction l with
  | nil => rfl
  | cons i rest ih =>
      cases h : i.done_at <;>
        simp [migrate_partition, h, ih, List.filter_cons]

theorem load_or_create_valid (sf : Option String) (path : String) (date : Date)
    (fs : FS) (j : Json) (d : DayFile) (h : getFile fs.files path = some j)
    (hj : decodeDayFile j = some d) :
    load_or_create_dayfile none sf path date fs = (fs, .ok d) := by
  simp [load_or_create_dayfile, h, hj]

theorem load_or_create_missing (path : String) (date : Date) (fs : FS)
    (h : getFile fs.files path = none) :
    load_or_create_dayfile none none path date fs =
      ({ files := setFile fs.files path (encodeDayFile ⟨date, []⟩),
         dirs := dirname path :: fs.dirs }, .ok ⟨date, []⟩) := by
  simp [load_or_create_dayfile, h, create_new_dayfile, save_dayfile]

theorem load_or_create_corrupt (sf : Option String) (path : String) (date : Date)
    (fs : FS) (j : Json) (h : getFile fs.files path = some j)
    (hj : decodeDayFile j = none) :
    load_or_create_dayfile none sf path date fs =
      (fs, .error ("read " ++ path ++ " failed: invalid day-file JSON")) := by
  simp [load_or_create_dayfile, h, hj]

theorem get?_modifyIdx (f : Item → Item) (l : List Item) (pos : Nat) :
    (modifyIdx f pos l)[pos]? = (l[pos]?).map f := by
  induction l generalizing pos with
  | nil => simp [modifyIdx]
  | cons x xs ih => cases pos <;> simp [modifyIdx, ih]

/-- Substring membership over the underlying character lists (used to
state that an error message does not mention something). -/
def listPrefOf : List Char → List Char → Bool
  | [], _ => true
  | _ :: _, [] => false
  | a :: as, b :: bs => a == b && listPrefOf as bs

def listSubOf (n : List Char) : List Char → Bool
  | [] => listPrefOf n []
  | b :: bs => listPrefOf n (b :: bs) || listSubOf n bs

def strContains (hay needle : String) : Bool := listSubOf needle.data hay.data

theorem listPrefOf_append (n m : List Char) : listPrefOf n (n ++ m) = true := by
  induction n with
  | nil => rfl
  | cons c cs ih => simp [listPrefOf, ih]

theorem listSubOf_cons (n : List Char) (c : Char) (cs : List Char) :
    listSubOf n (c :: cs) = (listPrefOf n (c :: cs) || listSubOf n cs) := rfl

theorem listSubOf_mid (a n b : List Char) : listSubOf n (a ++ n ++ b) = true := by
  induction a with
  | nil =>
      cases n with
      | nil =>
          cases b with
          | nil => rfl
          | cons x xs => simp [listSubOf, listPrefOf]
      | cons c cs =>
          rw [List.nil_append, List.cons_append, listSubOf_cons]
          have h : listPrefOf (c :: cs) (c :: (cs ++ b)) = true := by
            simpa [List.cons_append] using listPrefOf_append (c :: cs) b
          rw [h, Bool.true_or]
  | cons c cs ih =>
      rw [List.cons_append, List.cons_append, listSubOf_cons, ih, Bool.or_true]

theorem strContains_mid (a s b : String) : strContains (a ++ s ++ b) s = true := by
  simpa [strContains] using listSubOf_mid a.data s.data b.data

/-- A sample item used by concrete witnesses. -/
def sampleItem : Item :=
  { id := "abc123", text := "Pay rent", created_at := 0, done_at := some 3,
    priority := .low, tags := [], due := none, notes := none, index := 0,
    migrated_from := none }

/-! ## Claims -/

/-- C7: for every valid `DayFile` (arbitrary items including `None`
optionals, empty `tags`, and set or unset `done_at`, `due`, `notes`,
`migrated_from`), serializing it to the on-disk JSON form and parsing it
back yields a `DayFile` equal in every field to the original. -/
theorem c7_dayfile_roundtrip (d : DayFile) :
    decodeDayFile (encodeDayFile d) = some d :=
  decodeDayFile_encodeDayFile d

/-- C5: marking an item done sets `done_at` to the current time only if it
is currently `None`; marking an already-done item done again leaves the
timestamp unchanged; marking undone unconditionally clears `done_at`; and
reopening then re-completing stamps the (later) time of the second
completion. -/
theorem c5_done_idempotent_reopen_clears (i : Item) (now now1 now2 tmid t : Time) :
    (i.done_at = none → (apply_done_mark true now i).done_at = some now)
    ∧ (i.done_at = some t → (apply_done_mark true now i).done_at = some t)
    ∧ (apply_done_mark false now i).done_at = none
    ∧ (now1 < now2 →
        (apply_done_mark true now2 (apply_done_mark false tmid
          (apply_done_mark true now1 i))).done_at = some now2 ∧ now1 < now2) := by
  refine ⟨fun h => ?_, fun h => ?_, ?_, fun h => ⟨?_, h⟩⟩ <;>
    simp [apply_done_mark, *]

/-- Witness for C5 at a concrete item and concrete times. -/
theorem c5_done_idempotent_reopen_clears_witness :
    (apply_done_mark true 7 { sampleItem with done_at := none }).done_at = some 7
    ∧ (apply_done_mark true 9 sampleItem).done_at = some 3
    ∧ (apply_done_mark false 9 sampleItem).done_at = none
    ∧ ((apply_done_mark true 12 (apply_done_mark false 11
        (apply_done_mark true 7 sampleItem))).done_at = some 12 ∧ 7 < 12) :=
  ⟨(c5_done_idempotent_reopen_clears { sampleItem with done_at := none } 7 0 0 0 0).1 rfl,
   (c5_done_idempotent_reopen_clears sampleItem 9 0 0 0 3).2.1 rfl,
   (c5_done_idempotent_reopen_clears sampleItem 9 0 0 0 0).2.2.1,
   (c5_done_idempotent_reopen_clears sampleItem 0 7 12 11 0).2.2.2 (by decide)⟩

/-- C10: when both the from-date and the to-date are omitted, both default
to today's date, so `run_migrate` always fails with the identical
source/destination user-input error, and no file is read, created or
written. -/
theorem c10_migrate_both_dates_omitted (dryRun : Bool) (today : Date)
    (base : String) (faults : Faults) (fs : FS) :
    run_migrate none none dryRun today base faults fs =
      (fs, .error "Both `--from` and `--to` are the same value, check your input.") := by
  simp [run_migrate]

/-- C4: `load_or_create_dayfile` returns the parsed day-file when the file
exists and parses; when the file does not exist it constructs the empty
day-file for the date, persists it (recording the parent directory chain
with `create_dir_all`) and returns it; when the file exists but fails to
parse it returns a data-corruption error that names the path, and the
existing content is left untouched (the resulting state is the input
state). -/
theorem c4_load_or_create_contract (path : String) (date : Date) (fs : FS)
    (j : Json) (d : DayFile) :
    (getFile fs.files path = some j → decodeDayFile j = some d →
      load_or_create_dayfile none none path date fs = (fs, .ok d))
    ∧ (getFile fs.files path = none →
      load_or_create_dayfile none none path date fs =
        ({ files := setFile fs.files path (encodeDayFile ⟨date, []⟩),
           dirs := dirname path :: fs.dirs }, .ok ⟨date, []⟩)
      ∧ getFile (setFile fs.files path (encodeDayFile ⟨date, []⟩)) path
          = some (encodeDayFile ⟨date, []⟩))
    ∧ (getFile fs.files path = some j → decodeDayFile j = none →
      load_or_create_dayfile none none path date fs =
        (fs, .error ("read " ++ path ++ " failed: invalid day-file JSON"))
      ∧ strContains ("read " ++ path ++ " failed: invalid day-file JSON") path = true) := by
  refine ⟨fun h hj => load_or_create_valid none path date fs j d h hj,
    fun h => ⟨load_or_create_missing path date fs h, getFile_setFile_same _ _ _⟩,
    fun h hj => ⟨load_or_create_corrupt none path date fs j h hj, ?_⟩⟩
  simpa using strContains_mid "read " path " failed: invalid day-file JSON"

/-- Witness for C4: the missing-file branch creates and returns the empty
day-file, and the corrupt branch reports the path and leaves the file
alone, at a concrete path and state. -/
theorem c4_load_or_create_contract_witness :
    (load_or_create_dayfile none none "/data/2025/01/2025-01-10.json" "2025-01-10"
        ⟨[], []⟩
      = (⟨[("/data/2025/01/2025-01-10.json", encodeDayFile ⟨"2025-01-10", []⟩)],
          ["/data/2025/01"]⟩, .ok ⟨"2025-01-10", []⟩))
    ∧ (load_or_create_dayfile none none "/data/2025/01/2025-01-10.json" "2025-01-10"
        ⟨[("/data/2025/01/2025-01-10.json", Json.null)], []⟩
      = (⟨[("/data/2025/01/2025-01-10.json", Json.null)], []⟩,
         .error "read /data/2025/01/2025-01-10.json failed: invalid day-file JSON")) :=
  ⟨((c4_load_or_create_contract "/data/2025/01/2025-01-10.json" "2025-01-10"
      ⟨[], []⟩ Json.null ⟨"", []⟩).2.1 rfl).1,
   ((c4_load_or_create_contract "/data/2025/01/2025-01-10.json" "2025-01-10"
      ⟨[("/data/2025/01/2025-01-10.json", Json.null)], []⟩ Json.null ⟨"", []⟩).2.2
      rfl rfl).1⟩

/-! ## Migration run equations -/

/-- A commit-mode migration between two distinct, already-existing,
well-formed day-files: full characterisation of the resulting state and
report. -/
theorem run_migrate_commit_eq
    (base today : String) (fromDate toDate : Date) (S T : List Item) (fs : FS)
    (hdates : fromDate ≠ toDate)
    (hpaths : resolve_day_file_path base fromDate ≠ resolve_day_file_path base toDate)
    (hfrom : getFile fs.files (resolve_day_file_path base fromDate)
      = some (encodeDayFile ⟨fromDate, S⟩))
    (hto : getFile fs.files (resolve_day_file_path base toDate)
      = some (encodeDayFile ⟨toDate, T⟩)) :
    run_migrate (some fromDate) (some toDate) false today base noFaults fs =
      ({ files := setFile
            (setFile fs.files (resolve_day_file_path base fromDate)
              (encodeDayFile ⟨fromDate, S.filter (fun i => i.done_at.isSome)⟩))
            (resolve_day_file_path base toDate)
            (encodeDayFile ⟨toDate,
              T ++ (S.filter (fun i => i.done_at.isNone)).map
                (fun i => { i with migrated_from := some fromDate })⟩),
         dirs := dirname (resolve_day_file_path base toDate)
           :: dirname (resolve_day_file_path base fromDate) :: fs.dirs },
       .ok ⟨toDate,
         T ++ (S.filter (fun i => i.done_at.isNone)).map
           (fun i => { i with migrated_from := some fromDate })⟩) := by
  have hload1 : load_or_create_dayfile none none
      (resolve_day_file_path base fromDate) fromDate fs = (fs, .ok ⟨fromDate, S⟩) :=
    load_or_create_valid _ _ _ _ _ _ hfrom (decodeDayFile_encodeDayFile _)
  have hget2 : getFile (setFile fs.files (resolve_day_file_path base fromDate)
        (encodeDayFile ⟨fromDate, S.filter (fun i => i.done_at.isSome)⟩))
      (resolve_day_file_path base toDate) = some (encodeDayFile ⟨toDate, T⟩) := by
    rw [getFile_setFile_other _ _ _ _ (Ne.symm hpaths)]
    exact hto
  have hload2 : load_or_create_dayfile none none
      (resolve_day_file_path base toDate) toDate
      ⟨setFile fs.files (resolve_day_file_path base fromDate)
        (encodeDayFile ⟨fromDate, S.filter (fun i => i.done_at.isSome)⟩),
       dirname (resolve_day_file_path base fromDate) :: fs.dirs⟩
      = (⟨setFile fs.files (resolve_day_file_path base fromDate)
          (encodeDayFile ⟨fromDate, S.filter (fun i => i.done_at.isSome)⟩),
         dirname (resolve_day_file_path base fromDate) :: fs.dirs⟩,
         .ok ⟨toDate, T⟩) :=
    load_or_create_valid _ _ _ _ _ _ hget2 (decodeDayFile_encodeDayFile _)
  simp [run_migrate, noFaults, hdates, migrate_partition_spec, save_dayfile,
    hload1, hload2]

/-- A dry-run migration between two distinct, already-existing,
well-formed day-files: the state is untouched and the report is the same
preview a commit run computes. -/
theorem run_migrate_dry_eq
    (base today : String) (fromDate toDate : Date) (S T : List Item) (fs : FS)
    (hdates : fromDate ≠ toDate)
    (hfrom : getFile fs.files (resolve_day_file_path base fromDate)
      = some (encodeDayFile ⟨fromDate, S⟩))
    (hto : getFile fs.files (resolve_day_file_path base toDate)
      = some (encodeDayFile ⟨toDate, T⟩)) :
    run_migrate (some fromDate) (some toDate) true today base noFaults fs =
      (fs, .ok ⟨toDate,
        T ++ (S.filter (fun i => i.done_at.isNone)).map
          (fun i => { i with migrated_from := some fromDate })⟩) := by
  have hload1 : load_or_create_dayfile none none
      (resolve_day_file_path base fromDate) fromDate fs = (fs, .ok ⟨fromDate, S⟩) :=
    load_or_create_valid _ _ _ _ _ _ hfrom (decodeDayFile_encodeDayFile _)
  have hload2 : load_or_create_dayfile none none
      (resolve_day_file_path base toDate) toDate fs = (fs, .ok ⟨toDate, T⟩) :=
    load_or_create_valid _ _ _ _ _ _ hto (decodeDayFile_encodeDayFile _)
  simp [run_migrate, noFaults, hdates, migrate_partition_spec, hload1, hload2]

/-- A commit-mode migration in which the source save succeeds and the
destination save fails with message `m`: the result is the bare
underlying error `m`, with the source file already overwritten with the
kept partition. -/
theorem run_migrate_saveTo_fault_eq
    (base today : String) (fromDate toDate : Date) (S T : List Item) (fs : FS)
    (m : String)
    (hdates : fromDate ≠ toDate)
    (hpaths : resolve_day_file_path base fromDate ≠ resolve_day_file_path base toDate)
    (hfrom : getFile fs.files (resolve_day_file_path base fromDate)
      = some (encodeDayFile ⟨fromDate, S⟩))
    (hto : getFile fs.files (resolve_day_file_path base toDate)
      = some (encodeDayFile ⟨toDate, T⟩)) :
    run_migrate (some fromDate) (some toDate) false today base
      ⟨none, none, none, some m⟩ fs =
      ({ files := setFile fs.files (resolve_day_file_path base fromDate)
            (encodeDayFile ⟨fromDate, S.filter (fun i => i.done_at.isSome)⟩),
         dirs := dirname (resolve_day_file_path base fromDate) :: fs.dirs },
       .error m) := by
  have hload1 : load_or_create_dayfile none none
      (resolve_day_file_path base fromDate) fromDate fs = (fs, .ok ⟨fromDate, S⟩) :=
    load_or_create_valid _ _ _ _ _ _ hfrom (decodeDayFile_encodeDayFile _)
  have hget2 : getFile (setFile fs.files (resolve_day_file_path base fromDate)
        (encodeDayFile ⟨fromDate, S.filter (fun i => i.done_at.isSome)⟩))
      (resolve_day_file_path base toDate) = some (encodeDayFile ⟨toDate, T⟩) := by
    rw [getFile_setFile_other _ _ _ _ (Ne.symm hpaths)]
    exact hto
  have hload2 : load_or_create_dayfile none (some m)
      (resolve_day_file_path base toDate) toDate
      ⟨setFile fs.files (resolve_day_file_path base fromDate)
        (encodeDayFile ⟨fromDate, S.filter (fun i => i.done_at.isSome)⟩),
       dirname (resolve_day_file_path base fromDate) :: fs.dirs⟩
      = (⟨setFile fs.files (resolve_day_file_path base fromDate)
          (encodeDayFile ⟨fromDate, S.filter (fun i => i.done_at.isSome)⟩),
         dirname (resolve_day_file_path base fromDate) :: fs.dirs⟩,
         .ok ⟨toDate, T⟩) :=
    load_or_create_valid _ _ _ _ _ _ hget2 (decodeDayFile_encodeDayFile _)
  simp [run_migrate, migrate_partition_spec, save_dayfile, hload1, hload2, hdates]

/-- A commit-mode migration in which the source save succeeds and the
destination day-file exists but fails to parse: the load of the
destination fails, the bare data-corruption message is propagated, and
the source file has already been overwritten with the kept partition. -/
theorem run_migrate_toLoad_corrupt_eq
    (base today : String) (fromDate toDate : Date) (S : List Item) (fs : FS)
    (j : Json)
    (hdates : fromDate ≠ toDate)
    (hpaths : resolve_day_file_path base fromDate ≠ resolve_day_file_path base toDate)
    (hfrom : getFile fs.files (resolve_day_file_path base fromDate)
      = some (encodeDayFile ⟨fromDate, S⟩))
    (hto : getFile fs.files (resolve_day_file_path base toDate) = some j)
    (hj : decodeDayFile j = none) :
    run_migrate (some fromDate) (some toDate) false today base noFaults fs =
      ({ files := setFile fs.files (resolve_day_file_path base fromDate)
            (encodeDayFile ⟨fromDate, S.filter (fun i => i.done_at.isSome)⟩),
         dirs := dirname (resolve_day_file_path base fromDate) :: fs.dirs },
       .error ("read " ++ resolve_day_file_path base toDate
         ++ " failed: invalid day-file JSON")) := by
  have hload1 : load_or_create_dayfile none none
      (resolve_day_file_path base fromDate) fromDate fs = (fs, .ok ⟨fromDate, S⟩) :=
    load_or_create_valid _ _ _ _ _ _ hfrom (decodeDayFile_encodeDayFile _)
  have hget2 : getFile (setFile fs.files (resolve_day_file_path base fromDate)
        (encodeDayFile ⟨fromDate, S.filter (fun i => i.done_at.isSome)⟩))
      (resolve_day_file_path base toDate) = some j := by
    rw [getFile_setFile_other _ _ _ _ (Ne.symm hpaths)]
    exact hto
  have hload2 : load_or_create_dayfile none none
      (resolve_day_file_path base toDate) toDate
      ⟨setFile fs.files (resolve_day_file_path base fromDate)
        (encodeDayFile ⟨fromDate, S.filter (fun i => i.done_at.isSome)⟩),
       dirname (resolve_day_file_path base fromDate) :: fs.dirs⟩
      = (⟨setFile fs.files (resolve_day_file_path base fromDate)
          (encodeDayFile ⟨fromDate, S.filter (fun i => i.done_at.isSome)⟩),
         dirname (resolve_day_file_path base fromDate) :: fs.dirs⟩,
         .error ("read " ++ resolve_day_file_path base toDate
           ++ " failed: invalid day-file JSON")) :=
    load_or_create_corrupt _ _ _ _ _ hget2 hj
  simp [run_migrate, noFaults, migrate_partition_spec, save_dayfile, hload1,
    hload2, hdates]

/-- A commit-mode migration in which the source save succeeds and the
destination day-file cannot be opened for a non-NotFound reason (message
`m`): the load of the destination fails, the bare I/O message naming the
destination path is propagated, and the source file has already been
overwritten with the kept partition. -/
theorem run_migrate_toOpen_fault_eq
    (base today : String) (fromDate toDate : Date) (S : List Item) (fs : FS)
    (m : String)
    (hdates : fromDate ≠ toDate)
    (hfrom : getFile fs.files (resolve_day_file_path base fromDate)
      = some (encodeDayFile ⟨fromDate, S⟩)) :
    run_migrate (some fromDate) (some toDate) false today base
      ⟨none, none, some m, none⟩ fs =
      ({ files := setFile fs.files (resolve_day_file_path base fromDate)
            (encodeDayFile ⟨fromDate, S.filter (fun i => i.done_at.isSome)⟩),
         dirs := dirname (resolve_day_file_path base fromDate) :: fs.dirs },
       .error ("open " ++ resolve_day_file_path base toDate ++ " failed: " ++ m)) := by
  have hload1 : load_or_create_dayfile none none
      (resolve_day_file_path base fromDate) fromDate fs = (fs, .ok ⟨fromDate, S⟩) :=
    load_or_create_valid _ _ _ _ _ _ hfrom (decodeDayFile_encodeDayFile _)
  have hload2 : load_or_create_dayfile (some m) none
      (resolve_day_file_path base toDate) toDate
      ⟨setFile fs.files (resolve_day_file_path base fromDate)
        (encodeDayFile ⟨fromDate, S.filter (fun i => i.done_at.isSome)⟩),
       dirname (resolve_day_file_path base fromDate) :: fs.dirs⟩
      = (⟨setFile fs.files (resolve_day_file_path base fromDate)
          (encodeDayFile ⟨fromDate, S.filter (fun i => i.done_at.isSome)⟩),
         dirname (resolve_day_file_path base fromDate) :: fs.dirs⟩,
         .error ("open " ++ resolve_day_file_path base toDate ++ " failed: " ++ m)) :=
    rfl
  simp [run_migrate, migrate_partition_spec, save_dayfile, hload1, hload2, hdates]

/-- C1: for every source and destination day-file with distinct dates,
after a commit-mode migration the source file holds exactly the original
source items with `done_at != None` in order, and the destination file
holds the original destination items followed by the original source
items with `done_at == None` in order, each stamped with
`migrated_from = Some(from.date)` (overwriting any previous value). -/
theorem c1_migrate_commit_partition
    (base today : String) (fromDate toDate : Date) (S T : List Item) (fs : FS)
    (hdates : fromDate ≠ toDate)
    (hpaths : resolve_day_file_path base fromDate ≠ resolve_day_file_path base toDate)
    (hfrom : getFile fs.files (resolve_day_file_path base fromDate)
      = some (encodeDayFile ⟨fromDate, S⟩))
    (hto : getFile fs.files (resolve_day_file_path base toDate)
      = some (encodeDayFile ⟨toDate, T⟩)) :
    getFile (run_migrate (some fromDate) (some toDate) false today base
        noFaults fs).1.files (resolve_day_file_path base fromDate)
      = some (encodeDayFile ⟨fromDate, S.filter (fun i => i.done_at.isSome)⟩)
    ∧ getFile (run_migrate (some fromDate) (some toDate) false today base
        noFaults fs).1.files (resolve_day_file_path base toDate)
      = some (encodeDayFile ⟨toDate,
          T ++ (S.filter (fun i => i.done_at.isNone)).map
            (fun i => { i with migrated_from := some fromDate })⟩) := by
  rw [run_migrate_commit_eq base today fromDate toDate S T fs hdates hpaths hfrom hto]
  constructor
  · rw [getFile_setFile_other _ _ _ _ hpaths, getFile_setFile_same]
  · rw [getFile_setFile_same]

/-- An open item used by the concrete migration scenario. -/
def milkItem : Item :=
  { id := "m1n2o3", text := "Buy milk #errand", created_at := 1, done_at := none,
    priority := .low, tags := ["errand"], due := none, notes := none, index := 0,
    migrated_from := none }

/-- Concrete two-file scenario of spec section 8: 2025-01-10 holds one
open item and one done item; 2025-01-11 is empty. -/
def fsScenario : FS :=
  ⟨[(resolve_day_file_path "/data" "2025-01-10",
      encodeDayFile ⟨"2025-01-10", [milkItem, sampleItem]⟩),
    (resolve_day_file_path "/data" "2025-01-11",
      encodeDayFile ⟨"2025-01-11", []⟩)], []⟩

/-- Witness for C1 on the concrete scenario: after the commit migration
the source keeps only the done item and the destination gains the
stamped open item. -/
theorem c1_migrate_commit_partition_witness :
    getFile (run_migrate (some "2025-01-10") (some "2025-01-11") false "2025-01-12"
        "/data" noFaults fsScenario).1.files
        (resolve_day_file_path "/data" "2025-01-10")
      = some (encodeDayFile ⟨"2025-01-10", [sampleItem]⟩)
    ∧ getFile (run_migrate (some "2025-01-10") (some "2025-01-11") false "2025-01-12"
        "/data" noFaults fsScenario).1.files
        (resolve_day_file_path "/data" "2025-01-11")
      = some (encodeDayFile ⟨"2025-01-11",
          [{ milkItem with migrated_from := some "2025-01-10" }]⟩) := by
  have h := c1_migrate_commit_partition "/data" "2025-01-12" "2025-01-10" "2025-01-11"
    [milkItem, sampleItem] [] fsScenario (by decide) (by decide) rfl rfl
  exact h

/-- C2 counterexample: on an initial state where the source day-file does
not exist, a dry-run migration does NOT leave the disk unchanged —
`load_or_create_dayfile` still creates the missing source file (an empty
day-file) on disk, so the claim's "for every initial on-disk state"
quantification fails. -/
theorem c2_dry_run_counterexample :
    getFile (FS.mk [] []).files (resolve_day_file_path "/data" "2025-01-10") = none
    ∧ getFile (run_migrate (some "2025-01-10") (some "2025-01-11") true "2025-01-12"
        "/data" noFaults ⟨[], []⟩).1.files (resolve_day_file_path "/data" "2025-01-10")
      = some (encodeDayFile ⟨"2025-01-10", []⟩)
    ∧ getFile (run_migrate (some "2025-01-10") (some "2025-01-11") true "2025-01-12"
        "/data" noFaults ⟨[], []⟩).1.files (resolve_day_file_path "/data" "2025-01-10")
      ≠ getFile (FS.mk [] []).files (resolve_day_file_path "/data" "2025-01-10") := by
  refine ⟨rfl, rfl, fun h => ?_⟩
  rw [show getFile (run_migrate (some "2025-01-10") (some "2025-01-11") true "2025-01-12"
      "/data" noFaults ⟨[], []⟩).1.files (resolve_day_file_path "/data" "2025-01-10")
    = some (encodeDayFile ⟨"2025-01-10", []⟩) from rfl] at h
  rw [show getFile (FS.mk [] []).files (resolve_day_file_path "/data" "2025-01-10")
    = (none : Option Json) from rfl] at h
  exact Option.noConfusion h

/-- C2 as amended: when both the source and the destination day-files
already exist on disk and parse, a dry-run migration computes exactly the
same toKeep/toMove partition and the same preview destination
(`to.items ++ stamped toMove`) as a commit run on identical input, and
leaves both files byte-for-byte unchanged on disk; when a file is
missing, however, `load_or_create_dayfile` still creates it empty even
under dry-run. -/
theorem c2_dry_run_invariance
    (base today : String) (fromDate toDate : Date) (S T : List Item) (fs : FS)
    (hdates : fromDate ≠ toDate)
    (hpaths : resolve_day_file_path base fromDate ≠ resolve_day_file_path base toDate)
    (hfrom : getFile fs.files (resolve_day_file_path base fromDate)
      = some (encodeDayFile ⟨fromDate, S⟩))
    (hto : getFile fs.files (resolve_day_file_path base toDate)
      = some (encodeDayFile ⟨toDate, T⟩)) :
    (run_migrate (some fromDate) (some toDate) true today base noFaults fs).1 = fs
    ∧ (run_migrate (some fromDate) (some toDate) true today base noFaults fs).2
      = .ok ⟨toDate,
          T ++ (S.filter (fun i => i.done_at.isNone)).map
            (fun i => { i with migrated_from := some fromDate })⟩
    ∧ (run_migrate (some fromDate) (some toDate) true today base noFaults fs).2
      = (run_migrate (some fromDate) (some toDate) false today base noFaults fs).2 := by
  rw [run_migrate_dry_eq base today fromDate toDate S T fs hdates hfrom hto,
    run_migrate_commit_eq base today fromDate toDate S T fs hdates hpaths hfrom hto]
  exact ⟨rfl, rfl, rfl⟩

/-- Witness for C2 (amended) on the concrete two-file scenario. -/
theorem c2_dry_run_invariance_witness :
    (run_migrate (some "2025-01-10") (some "2025-01-11") true "2025-01-12"
      "/data" noFaults fsScenario).1 = fsScenario
    ∧ (run_migrate (some "2025-01-10") (some "2025-01-11") true "2025-01-12"
        "/data" noFaults fsScenario).2
      = .ok ⟨"2025-01-11", [{ milkItem with migrated_from := some "2025-01-10" }]⟩
    ∧ (run_migrate (some "2025-01-10") (some "2025-01-11") true "2025-01-12"
        "/data" noFaults fsScenario).2
      = (run_migrate (some "2025-01-10") (some "2025-01-11") false "2025-01-12"
          "/data" noFaults fsScenario).2 := by
  have h := c2_dry_run_invariance "/data" "2025-01-12" "2025-01-10" "2025-01-11"
    [milkItem, sampleItem] [] fsScenario (by decide) (by decide) rfl rfl
  exact h

/-- C3 counterexample: a commit migration on the concrete scenario in
which the source save succeeds and the destination save fails with the
underlying OS message "No space left on device".  The returned error is
exactly that bare message: it mentions neither the source day-file's
path (or date) nor any modification, even though the source file has
already been overwritten in the resulting state — so no explicit warning
that the source day-file was modified is ever produced. -/
theorem c3_cross_file_failure_counterexample :
    (run_migrate (some "2025-01-10") (some "2025-01-11") false "2025-01-12"
        "/data" ⟨none, none, none, some "No space left on device"⟩ fsScenario).2
      = .error "No space left on device"
    ∧ strContains "No space left on device"
        (resolve_day_file_path "/data" "2025-01-10") = false
    ∧ strContains "No space left on device" "2025-01-10" = false
    ∧ strContains "No space left on device" "modified" = false
    ∧ getFile (run_migrate (some "2025-01-10") (some "2025-01-11") false "2025-01-12"
        "/data" ⟨none, none, none, some "No space left on device"⟩ fsScenario).1.files
        (resolve_day_file_path "/data" "2025-01-10")
      = some (encodeDayFile ⟨"2025-01-10", [sampleItem]⟩) :=
  ⟨rfl, rfl, rfl, rfl, rfl⟩

/-- C3 as amended: in a commit-mode migration, whenever the save of the
source day-file succeeds and any later step fails — the destination save
failing with message `m`, the destination file existing but failing to
parse, or the destination file failing to open for a non-NotFound reason
— the operation merely propagates the underlying error message unchanged
(a bare OS message, or the load error naming only the destination path);
no warning that the source day-file has already been modified is
attached, while the resulting on-disk state does have the source file
already overwritten with only its completed items. -/
theorem c3_cross_file_failure_bare_error
    (base today : String) (fromDate toDate : Date) (S T : List Item) (fs : FS)
    (m : String) (j : Json)
    (hdates : fromDate ≠ toDate)
    (hpaths : resolve_day_file_path base fromDate ≠ resolve_day_file_path base toDate)
    (hfrom : getFile fs.files (resolve_day_file_path base fromDate)
      = some (encodeDayFile ⟨fromDate, S⟩)) :
    (getFile fs.files (resolve_day_file_path base toDate)
        = some (encodeDayFile ⟨toDate, T⟩) →
      (run_migrate (some fromDate) (some toDate) false today base
          ⟨none, none, none, some m⟩ fs).2 = .error m
      ∧ getFile (run_migrate (some fromDate) (some toDate) false today base
          ⟨none, none, none, some m⟩ fs).1.files (resolve_day_file_path base fromDate)
        = some (encodeDayFile ⟨fromDate, S.filter (fun i => i.done_at.isSome)⟩))
    ∧ (getFile fs.files (resolve_day_file_path base toDate) = some j →
      decodeDayFile j = none →
      (run_migrate (some fromDate) (some toDate) false today base noFaults fs).2
        = .error ("read " ++ resolve_day_file_path base toDate
            ++ " failed: invalid day-file JSON")
      ∧ getFile (run_migrate (some fromDate) (some toDate) false today base
          noFaults fs).1.files (resolve_day_file_path base fromDate)
        = some (encodeDayFile ⟨fromDate, S.filter (fun i => i.done_at.isSome)⟩))
    ∧ ((run_migrate (some fromDate) (some toDate) false today base
          ⟨none, none, some m, none⟩ fs).2
        = .error ("open " ++ resolve_day_file_path base toDate ++ " failed: " ++ m)
      ∧ getFile (run_migrate (some fromDate) (some toDate) false today base
          ⟨none, none, some m, none⟩ fs).1.files (resolve_day_file_path base fromDate)
        = some (encodeDayFile ⟨fromDate, S.filter (fun i => i.done_at.isSome)⟩)) := by
  refine ⟨fun hto => ?_, fun hto hj => ?_, ?_⟩
  · rw [run_migrate_saveTo_fault_eq base today fromDate toDate S T fs m hdates hpaths
      hfrom hto]
    exact ⟨rfl, getFile_setFile_same _ _ _⟩
  · rw [run_migrate_toLoad_corrupt_eq base today fromDate toDate S fs j hdates hpaths
      hfrom hto hj]
    exact ⟨rfl, getFile_setFile_same _ _ _⟩
  · rw [run_migrate_toOpen_fault_eq base today fromDate toDate S fs m hdates hfrom]
    exact ⟨rfl, getFile_setFile_same _ _ _⟩

/-- Concrete two-file state whose destination day-file is corrupt (its
content does not parse as the day-file schema). -/
def fsCorruptTo : FS :=
  ⟨[(resolve_day_file_path "/data" "2025-01-10",
      encodeDayFile ⟨"2025-01-10", [milkItem, sampleItem]⟩),
    (resolve_day_file_path "/data" "2025-01-11", Json.null)], []⟩

/-- Witness for C3 (amended) on concrete scenarios: destination save
failure, corrupt destination load failure, and non-NotFound destination
open failure, each after the source was already overwritten. -/
theorem c3_cross_file_failure_bare_error_witness :
    ((run_migrate (some "2025-01-10") (some "2025-01-11") false "2025-01-12"
        "/data" ⟨none, none, none, some "disk full"⟩ fsScenario).2
      = .error "disk full"
    ∧ getFile (run_migrate (some "2025-01-10") (some "2025-01-11") false "2025-01-12"
        "/data" ⟨none, none, none, some "disk full"⟩ fsScenario).1.files
        (resolve_day_file_path "/data" "2025-01-10")
      = some (encodeDayFile ⟨"2025-01-10", [sampleItem]⟩))
    ∧ ((run_migrate (some "2025-01-10") (some "2025-01-11") false "2025-01-12"
        "/data" noFaults fsCorruptTo).2
      = .error "read /data/2025/01/2025-01-11.json failed: invalid day-file JSON"
    ∧ getFile (run_migrate (some "2025-01-10") (some "2025-01-11") false "2025-01-12"
        "/data" noFaults fsCorruptTo).1.files
        (resolve_day_file_path "/data" "2025-01-10")
      = some (encodeDayFile ⟨"2025-01-10", [sampleItem]⟩))
    ∧ ((run_migrate (some "2025-01-10") (some "2025-01-11") false "2025-01-12"
        "/data" ⟨none, none, some "permission denied", none⟩ fsScenario).2
      = .error "open /data/2025/01/2025-01-11.json failed: permission denied"
    ∧ getFile (run_migrate (some "2025-01-10") (some "2025-01-11") false "2025-01-12"
        "/data" ⟨none, none, some "permission denied", none⟩ fsScenario).1.files
        (resolve_day_file_path "/data" "2025-01-10")
      = some (encodeDayFile ⟨"2025-01-10", [sampleItem]⟩)) := by
  refine ⟨?_, ?_, ?_⟩
  · exact (c3_cross_file_failure_bare_error "/data" "2025-01-12" "2025-01-10"
      "2025-01-11" [milkItem, sampleItem] [] fsScenario "disk full" Json.null
      (by decide) (by decide) rfl).1 rfl
  · exact (c3_cross_file_failure_bare_error "/data" "2025-01-12" "2025-01-10"
      "2025-01-11" [milkItem, sampleItem] [] fsCorruptTo "x" Json.null
      (by decide) (by decide) rfl).2.1 rfl rfl
  · exact (c3_cross_file_failure_bare_error "/data" "2025-01-12" "2025-01-10"
      "2025-01-11" [milkItem, sampleItem] [] fsScenario "permission denied" Json.null
      (by decide) (by decide) rfl).2.2

/-- C6 counterexample: an out-of-range position is NOT validated before
any file is created.  On a state where the day-file for 2025-01-10 does
not exist, `tusk done 1` first runs `load_or_create_dayfile` — which
creates the empty day-file on disk — and only then fails index
validation, so the command errors AND a new file has appeared. -/
theorem c6_validation_counterexample :
    getFile (FS.mk [] []).files (resolve_day_file_path "/data" "2025-01-10") = none
    ∧ (run_done 1 true 50 none none (resolve_day_file_path "/data" "2025-01-10")
        "2025-01-10" ⟨[], []⟩).2 = .error "item at index 1 does not exist."
    ∧ getFile (run_done 1 true 50 none none (resolve_day_file_path "/data" "2025-01-10")
        "2025-01-10" ⟨[], []⟩).1.files (resolve_day_file_path "/data" "2025-01-10")
      = some (encodeDayFile ⟨"2025-01-10", []⟩) :=
  ⟨rfl, rfl, rfl⟩

/-- C6 as amended: empty task text (for `add`) and identical migration
source/destination dates are validated before any file is read, created
or mutated, and the out-of-range position error never mutates existing
file content — but the position check runs only after
`load_or_create_dayfile`, so a missing day-file is created on disk
before the position error is reported. -/
theorem c6_validation_order
    (text : String) (prio : Option String) (attach : Bool)
    (edOut freshId : String) (now : Time) (nextIdx : Nat)
    (openF saveF : Option String) (path : String) (date dd : Date)
    (dry : Bool) (today base : String) (faults : Faults) (fs : FS)
    (idx : Nat) (mark : Bool) (d : DayFile) :
    (strTrim text = "" →
      run_add text prio attach edOut freshId now nextIdx openF saveF path date fs
        = (fs, .error "Oops, did you forget to add some text?"))
    ∧ run_migrate (some dd) (some dd) dry today base faults fs
        = (fs, .error "Both `--from` and `--to` are the same value, check your input.")
    ∧ (getFile fs.files path = some (encodeDayFile d) →
      (idx = 0 ∨ idx > d.items.length) →
      run_done idx mark now none none path date fs
        = (fs, .error ("item at index " ++ Nat.repr idx ++ " does not exist.")))
    ∧ (getFile fs.files path = none →
      run_done idx mark now none none path date fs
        = ({ files := setFile fs.files path (encodeDayFile ⟨date, []⟩),
             dirs := dirname path :: fs.dirs },
           .error ("item at index " ++ Nat.repr idx ++ " does not exist."))) := by
  refine ⟨fun h => ?_, ?_, fun hf hidx => ?_, fun hf => ?_⟩
  · simp [run_add, sanitise_str, h]
  · simp [run_migrate]
  · have hload := load_or_create_valid none path date fs _ d hf
      (decodeDayFile_encodeDayFile _)
    simp [run_done, hload, validate_index, hidx]
  · have hload := load_or_create_missing path date fs hf
    cases idx with
    | zero => simp [run_done, hload, validate_index]
    | succ n => simp [run_done, hload, validate_index]

/-- Witness for C6 (amended) at concrete inputs: whitespace-only add on
an untouched state, same-date migrate, out-of-range `done 3` on an
existing one-item file, and `done 2` on a missing file which creates it. -/
theorem c6_validation_order_witness :
    run_add "   " none false "" "id1" 5 0 none none "/p" "2025-01-10" ⟨[], []⟩
      = (⟨[], []⟩, .error "Oops, did you forget to add some text?")
    ∧ run_migrate (some "2025-01-10") (some "2025-01-10") false "2025-01-12" "/data"
        noFaults ⟨[], []⟩
      = (⟨[], []⟩, .error "Both `--from` and `--to` are the same value, check your input.")
    ∧ run_done 3 true 50 none none "/p" "2025-01-10"
        ⟨[("/p", encodeDayFile ⟨"2025-01-10", [sampleItem]⟩)], []⟩
      = (⟨[("/p", encodeDayFile ⟨"2025-01-10", [sampleItem]⟩)], []⟩,
         .error "item at index 3 does not exist.")
    ∧ run_done 2 true 50 none none "/p" "2025-01-10" ⟨[], []⟩
      = (⟨[("/p", encodeDayFile ⟨"2025-01-10", []⟩)], [""]⟩,
         .error "item at index 2 does not exist.") := by
  refine ⟨?_, ?_, ?_, ?_⟩
  · exact (c6_validation_order "   " none false "" "id1" 5 0 none none "/p"
      "2025-01-10" "x" false "t" "b" noFaults ⟨[], []⟩ 0 true ⟨"", []⟩).1 rfl
  · exact (c6_validation_order "" none false "" "" 0 0 none none "/p"
      "2025-01-10" "2025-01-10" false "2025-01-12" "/data" noFaults ⟨[], []⟩
      0 true ⟨"", []⟩).2.1
  · exact (c6_validation_order "" none false "" "" 50 0 none none "/p"
      "2025-01-10" "x" false "t" "b" noFaults
      ⟨[("/p", encodeDayFile ⟨"2025-01-10", [sampleItem]⟩)], []⟩ 3 true
      ⟨"2025-01-10", [sampleItem]⟩).2.2.1 rfl (by decide)
  · exact (c6_validation_order "" none false "" "" 50 0 none none "/p"
      "2025-01-10" "x" false "t" "b" noFaults ⟨[], []⟩ 2 true ⟨"", []⟩).2.2.2 rfl

/-- C8: for all valid non-empty text (the data model's valid text is
whitespace-trimmed and non-empty), adding an item and immediately loading
the day-file yields an item whose text is that exact text, whose
`done_at` is `None`, and whose tags are exactly the `#`-prefixed words of
the text with the `#` stripped, case-sensitive, in order of appearance,
duplicates kept — which is precisely what `extract_tags` computes. -/
theorem c8_add_then_load
    (text : String) (prio : Option String) (freshId : String) (now : Time)
    (nextIdx : Nat) (path : String) (date : Date) (fs : FS) (d : DayFile)
    (htrim : strTrim text = text) (hne : text ≠ "")
    (hfile : getFile fs.files path = some (encodeDayFile d)) :
    (load_or_create_dayfile none none path date
        (run_add text prio false "" freshId now nextIdx none none path date fs).1).2
      = .ok { d with items := d.items ++
          [Item.new text (get_item_priority prio) (extract_tags text) nextIdx none
            freshId now] }
    ∧ (Item.new text (get_item_priority prio) (extract_tags text) nextIdx none
        freshId now).text = text
    ∧ (Item.new text (get_item_priority prio) (extract_tags text) nextIdx none
        freshId now).done_at = none
    ∧ (Item.new text (get_item_priority prio) (extract_tags text) nextIdx none
        freshId now).tags = extract_tags text := by
  have hsan : sanitise_str text = .ok text := by
    simp [sanitise_str, htrim, hne]
  have hload := load_or_create_valid none path date fs _ d hfile
    (decodeDayFile_encodeDayFile _)
  refine ⟨?_, rfl, rfl, rfl⟩
  have hrun : run_add text prio false "" freshId now nextIdx none none path date fs
      = (⟨setFile fs.files path (encodeDayFile { d with items := d.items ++
            [Item.new text (get_item_priority prio) (extract_tags text) nextIdx none
              freshId now] }),
          dirname path :: fs.dirs⟩,
         .ok { d with items := d.items ++
            [Item.new text (get_item_priority prio) (extract_tags text) nextIdx none
              freshId now] }) := by
    simp [run_add, hsan, hload, save_dayfile]
  rw [hrun]
  rw [load_or_create_valid none path date _ _ _ (getFile_setFile_same _ _ _)
    (decodeDayFile_encodeDayFile _)]

/-- Witness for C8: adding "Buy milk #errand" to an empty existing
day-file and reloading yields exactly that item with tag "errand". -/
theorem c8_add_then_load_witness :
    (load_or_create_dayfile none none "/p" "2025-01-10"
        (run_add "Buy milk #errand" none false "" "m1n2o3" 1 0 none none "/p"
          "2025-01-10" ⟨[("/p", encodeDayFile ⟨"2025-01-10", []⟩)], []⟩).1).2
      = .ok ⟨"2025-01-10", [milkItem]⟩
    ∧ milkItem.text = "Buy milk #errand"
    ∧ milkItem.done_at = none
    ∧ milkItem.tags = ["errand"] := by
  have h := c8_add_then_load "Buy milk #errand" none "m1n2o3" 1 0 "/p" "2025-01-10"
    ⟨[("/p", encodeDayFile ⟨"2025-01-10", []⟩)], []⟩ ⟨"2025-01-10", []⟩ rfl
    (by decide) rfl
  exact ⟨h.1, rfl, rfl, rfl⟩

/-- C9: every edit invocation with a valid index that does not set the
attach-notes flag (whether or not replacement text is given) stores the
item with `notes = None`, even if it previously held `Some(text)`:
editing does not preserve an item's existing notes. -/
theorem c9_edit_clears_notes
    (idx : Nat) (textArg : Option String) (edOut path : String) (date : Date)
    (fs : FS) (d : DayFile)
    (hfile : getFile fs.files path = some (encodeDayFile d))
    (h0 : idx ≠ 0) (hlen : idx ≤ d.items.length)
    (htext : textArg = none ∨ ∃ s, textArg = some s ∧ strTrim s ≠ "") :
    ∃ items', run_edit idx textArg false edOut none none path date fs
        = (⟨setFile fs.files path (encodeDayFile { d with items := items' }),
            dirname path :: fs.dirs⟩, .ok ())
      ∧ (items'[idx - 1]?).map Item.notes = some none := by
  have hload := load_or_create_valid none path date fs _ d hfile
    (decodeDayFile_encodeDayFile _)
  have hcond : ¬(idx = 0 ∨ idx > d.items.length) := by omega
  have hvi : validate_index idx d.items.length = .ok (idx - 1) := by
    simp [validate_index, hcond]
  have hlt : idx - 1 < d.items.length := by omega
  rcases htext with h | ⟨s, h, hs⟩
  · subst h
    refine ⟨modifyIdx (fun i => { i with notes := none }) (idx - 1) d.items, ?_, ?_⟩
    · simp [run_edit, hload, hvi, save_dayfile]
    · rw [get?_modifyIdx, List.getElem?_eq_getElem hlt]
      simp
  · subst h
    have hsan : sanitise_str s = .ok (strTrim s) := by
      simp [sanitise_str, hs]
    refine ⟨modifyIdx (fun i => { i with text := strTrim s, notes := none })
      (idx - 1) d.items, ?_, ?_⟩
    · simp [run_edit, hload, hvi, hsan, save_dayfile]
    · rw [get?_modifyIdx, List.getElem?_eq_getElem hlt]
      simp

/-- An item carrying pre-existing notes, for the C9 witness. -/
def notedItem : Item :=
  { id := "n1n2n3", text := "Call bank", created_at := 2, done_at := none,
    priority := .high, tags := [], due := none, notes := some "remember the ref",
    index := 0, migrated_from := none }

/-- Witness for C9: a text-free, notes-free edit of an item that has
notes stores it back with `notes = None`. -/
theorem c9_edit_clears_notes_witness :
    ∃ items', run_edit 1 none false "" none none "/p" "2025-01-10"
        ⟨[("/p", encodeDayFile ⟨"2025-01-10", [notedItem]⟩)], []⟩
        = (⟨setFile (⟨[("/p", encodeDayFile ⟨"2025-01-10", [notedItem]⟩)], []⟩ : FS).files
              "/p" (encodeDayFile { date := "2025-01-10", items := items' }),
            dirname "/p" :: []⟩, .ok ())
      ∧ (items'[0]?).map Item.notes = some none :=
  c9_edit_clears_notes 1 none "" "/p" "2025-01-10"
    ⟨[("/p", encodeDayFile ⟨"2025-01-10", [notedItem]⟩)], []⟩
    ⟨"2025-01-10", [notedItem]⟩ rfl (by decide) (by decide) (Or.inl rfl)
